import Mathlib

/-!
Verification of the Shopify/LearnWorlds webhook bridge.

This development embeds the mapping/resolution layer
(`src/utils/productCourseMapping.js`), the LearnWorlds enrollment service
(the diagnostic service variant of `learnWorldsService.js`), and the
webhook per-line-item processing loops, and proves the specified
properties about them.

Modelling conventions:
- A JavaScript object used as a string-keyed dictionary is an association
  list in insertion order (`Store`), matching the iteration order of
  `Object.entries` for string keys.
- JavaScript truthiness on a possibly-absent string value
  (`if (x) ...` where `x` is `map[key]`) is `jsTruthy`: present and
  non-empty.
- `toLowerStr`/`trimStr` model `toLowerCase()`/`trim()`
  (the identifiers and names involved are ASCII).
- `a.includes(b)` is `strIncludes a b`, substring containment.
-/

namespace ShopifyLW

/-- A JS object with string keys and string values, kept in insertion
order, as persisted in the JSON mapping files. -/
abbrev Store := List (String × String)

/-- Property access `map[key]` on a JS dictionary: the value at the key,
or absent. -/
def lookupStr (st : Store) (k : String) : Option String :=
  (st.find? (fun kv => kv.1 == k)).map (·.2)

/-- JS truthiness of `map[key]`: the key is present and its value is a
non-empty string. -/
def jsTruthy : Option String → Bool
  | none => false
  | some s => !(s == "")

/-- JS `s.toLowerCase()` on the ASCII identifiers and names involved:
lowercase each character. -/
def toLowerStr (s : String) : String :=
  ⟨s.data.map Char.toLower⟩

/-- JS `s.trim()`: drop leading and trailing whitespace. -/
def trimStr (s : String) : String :=
  ⟨((s.data.dropWhile Char.isWhitespace).reverse.dropWhile Char.isWhitespace).reverse⟩

/-- Does the first character list start with the second? -/
def startsWithChars : List Char → List Char → Bool
  | _, [] => true
  | [], _ :: _ => false
  | c :: l, p :: ps => c == p && startsWithChars l ps

/-- Does the pattern occur as a contiguous run inside the character list? -/
def containsChars : List Char → List Char → Bool
  | [], pat => pat.isEmpty
  | c :: l, pat => startsWithChars (c :: l) pat || containsChars l pat

/-- JS `s.includes(pat)`: `pat` occurs as a contiguous substring of `s`. -/
def strIncludes (s pat : String) : Bool :=
  containsChars s.data pat.data

/-- `findBundleCourseIdByName(productName)` from
`src/utils/productCourseMapping.js` (lines 145-165): normalize the name
(lowercase, trim); return the exact-match value when truthy; otherwise
return the value of the first stored key whose lowercased form is a
substring of the normalized name; otherwise no match. -/
def findBundleCourseIdByName (bnm : Store) (productName : String) : Option String :=
  let normalizedName := trimStr (toLowerStr productName)
  let exact := lookupStr bnm normalizedName
  if jsTruthy exact then exact
  else
    match bnm.find? (fun kv => strIncludes normalizedName (toLowerStr kv.1)) with
    | some kv => some kv.2
    | none => none

/-- `getCourseIdForProduct(productId, productName)` from
`src/utils/productCourseMapping.js` (lines 87-105): direct lookup first
(returned when truthy); otherwise, when the product name is truthy and its
lowercased form contains "bundle", consult `findBundleCourseIdByName`
(its result returned when truthy); otherwise null. -/
def getCourseIdForProduct (ptc bnm : Store) (productId productName : String) :
    Option String :=
  let directCourseId := lookupStr ptc productId
  if jsTruthy directCourseId then directCourseId
  else if productName != "" && strIncludes (toLowerStr productName) "bundle" then
    let bundleCourseId := findBundleCourseIdByName bnm productName
    if jsTruthy bundleCourseId then bundleCourseId else none
  else none

/-- JS property assignment `map[k] = v`: update in place when the key is
present (keeping its position in insertion order), else append. -/
def setKey (st : Store) (k v : String) : Store :=
  if st.any (fun kv => kv.1 == k) then
    st.map (fun kv => if kv.1 == k then (kv.1, v) else kv)
  else st ++ [(k, v)]

/-- JS `delete map[k]`: drop the entry at the key; succeeds either way. -/
def removeKey (st : Store) (k : String) : Store :=
  st.filter (fun kv => !(kv.1 == k))

/-- `setProductCourseMapping(productId, courseId)` (lines 205-208):
mutate the in-memory map (the full image is then persisted). -/
def setProductCourseMapping (st : Store) (productId courseId : String) : Store :=
  setKey st productId courseId

/-- `removeProductCourseMapping(productId)` (lines 214-217). -/
def removeProductCourseMapping (st : Store) (productId : String) : Store :=
  removeKey st productId

/-- `setBundleNameMapping(bundleName, courseId)` (lines 172-177): the key
is normalized (lowercase, trim) before assignment. -/
def setBundleNameMapping (st : Store) (bundleName courseId : String) : Store :=
  setKey st (trimStr (toLowerStr bundleName)) courseId

/-- `removeBundleNameMapping(bundleName)` (lines 183-187): the key is
normalized before deletion. -/
def removeBundleNameMapping (st : Store) (bundleName : String) : Store :=
  removeKey st (trimStr (toLowerStr bundleName))

/-! ### The bundle-components store

`bundleToComponentsMap` maps a bundle product id to an array of
component product ids (lines 234-255); it has the same CRUD shape as
the other two stores, with list values. -/

/-- The bundle-components store: a JS dictionary from bundle product id
to the array of component product ids, in insertion order. -/
abbrev CompStore := List (String × List String)

/-- Property access `map[key]` on a dictionary with values of any
type. -/
def lookupKeyG {α : Type} (st : List (String × α)) (k : String) : Option α :=
  (st.find? (fun kv => kv.1 == k)).map (·.2)

/-- JS property assignment `map[k] = v` on a dictionary with values of
any type: update in place when the key is present, else append. -/
def setKeyG {α : Type} (st : List (String × α)) (k : String) (v : α) :
    List (String × α) :=
  if st.any (fun kv => kv.1 == k) then
    st.map (fun kv => if kv.1 == k then (kv.1, v) else kv)
  else st ++ [(k, v)]

/-- JS `delete map[k]` on a dictionary with values of any type. -/
def removeKeyG {α : Type} (st : List (String × α)) (k : String) :
    List (String × α) :=
  st.filter (fun kv => !(kv.1 == k))

/-- `setBundleComponents(bundleProductId, componentProductIds)`
(lines 243-246). -/
def setBundleComponents (st : CompStore) (bundleProductId : String)
    (componentProductIds : List String) : CompStore :=
  setKeyG st bundleProductId componentProductIds

/-- `removeBundleComponents(bundleProductId)` (lines 252-255). -/
def removeBundleComponents (st : CompStore) (bundleProductId : String) : CompStore :=
  removeKeyG st bundleProductId

/-- `getBundleComponents(bundleProductId)` (lines 234-236):
`bundleToComponentsMap[bundleProductId] || []` — the stored array when
the key is present (any array, even an empty one, is truthy), else an
empty array. -/
def getBundleComponents (st : CompStore) (bundleProductId : String) : List String :=
  (lookupKeyG st bundleProductId).getD []

/-! ### LearnWorlds service model

Embeds the diagnostic-logging `LearnWorldsService` variant
(`learnWorldsService.js` with bundle-aware unenrollment, lines 133-187):
the learning platform is modelled as a state of users and enrollments,
and each service call returns its result, the platform state after the
call, and the trace of HTTP requests it issued. -/

/-- A LearnWorlds user record (the fields the service reads). -/
structure LWUser where
  id : String
  email : String
  deriving DecidableEq

/-- The learning platform's state: registered users and the set of
(user id, course id) enrollments. -/
structure LWState where
  users : List LWUser
  enrollments : List (String × String)
  deriving DecidableEq

/-- One HTTP request issued by the service. -/
inductive ApiCall where
  /-- `GET /v2/users...` (find-user search or connection test). -/
  | getUsers (query : String)
  /-- `DELETE /v2/users/{userId}/courses/{courseId}`. -/
  | deleteEnrollment (userId courseId : String)
  /-- `POST /v2/users/{userId}/courses/{courseId}`. -/
  | createEnrollment (userId courseId : String)
  /-- `POST /v2/users`. -/
  | createUser (email : String)
  deriving DecidableEq

/-- Whether a request can change enrollment state on the platform. -/
def ApiCall.isMutation : ApiCall → Bool
  | .deleteEnrollment _ _ => true
  | .createEnrollment _ _ => true
  | .createUser _ => true
  | .getUsers _ => false

/-- `findUserByEmail(email)`: the user search; method 2 of the service
compares emails case-insensitively, which this lookup models. -/
def findUserByEmail (st : LWState) (email : String) : Option LWUser :=
  st.users.find? (fun u => toLowerStr u.email == toLowerStr email)

/-- The platform's response to `DELETE /v2/users/{uid}/courses/{cid}`:
204 and the enrollment removed when it exists, else 404 and no change. -/
def deleteEnrollmentApi (st : LWState) (userId courseId : String) :
    Nat × LWState :=
  if st.enrollments.contains (userId, courseId) then
    (204, { st with
            enrollments := st.enrollments.filter (fun e => !(e == (userId, courseId))) })
  else (404, st)

/-- Result of one service call: the returned/thrown outcome, the platform
state afterwards, and the requests issued. -/
structure CallResult where
  result : Except String Bool
  state : LWState
  trace : List ApiCall

/-- `unenrollUserFromCourse(userEmail, courseId, productName)` from the
diagnostic service variant (lines 133-187): find the user (user absent:
log, test the connection, and return `true` — the desired state already
holds); resolve the product to a LearnWorlds course via
`getCourseIdForProduct` (no mapping: return `false`); issue the DELETE,
treating a 404 response ("was not enrolled") as success `true`; any other
non-2xx response is rethrown as an error. -/
def unenrollUserFromCourse (ptc bnm : Store) (st : LWState)
    (userEmail productId productName : String) : CallResult :=
  match findUserByEmail st userEmail with
  | none =>
      { result := .ok true, state := st
        trace := [.getUsers userEmail, .getUsers "limit=1"] }
  | some user =>
      match getCourseIdForProduct ptc bnm productId productName with
      | none => { result := .ok false, state := st, trace := [.getUsers userEmail] }
      | some cid =>
          let r := deleteEnrollmentApi st user.id cid
          if 200 ≤ r.1 ∧ r.1 < 300 then
            { result := .ok true, state := r.2
              trace := [.getUsers userEmail, .deleteEnrollment user.id cid] }
          else if r.1 == 404 then
            { result := .ok true, state := r.2
              trace := [.getUsers userEmail, .deleteEnrollment user.id cid] }
          else
            { result := .error "Failed to unenroll user from course", state := r.2
              trace := [.getUsers userEmail, .deleteEnrollment user.id cid] }

/-! ### Webhook per-line-item processing loop

Embeds the `for (const item of order.line_items)` loops of the
`orders/cancelled` (lines 409-427) and `orders/create` (lines 497-522)
handlers: both skip items without a product id or without a resolved
course and `await` the service call for the rest, with no per-item
try/catch, inside a handler-level try/catch that answers
`200 {success: true, message: 'Error fetching order details'}` when
anything throws. `call` stands for the service enroll or unenroll
invocation on the resolved course id. -/

/-- One Shopify order line item (the fields the handlers read):
`product_id` (absent or falsy ids are skipped) and `title`. -/
structure LineItem where
  product_id : Option String
  title : String
  deriving DecidableEq

/-- The per-item loop body, sequentially: returns the resolved course ids
for which the service call was invoked (in order) and, when a call threw,
the error that aborted the loop. -/
def webhookItemLoop (resolve : String → String → Option String)
    (call : String → Except String Bool) : List LineItem → List String × Option String
  | [] => ([], none)
  | item :: rest =>
      match item.product_id with
      | none => webhookItemLoop resolve call rest
      | some pid =>
          match resolve pid item.title with
          | none => webhookItemLoop resolve call rest
          | some cid =>
              match call cid with
              | .ok _ =>
                  let r := webhookItemLoop resolve call rest
                  (cid :: r.1, r.2)
              | .error e => ([cid], some e)

/-- The HTTP response a webhook handler sends. -/
structure WebhookResponse where
  status : Nat
  success : Bool
  message : Option String
  deriving DecidableEq

/-- An order event's item-processing phase plus its response: when the
loop completed, `200 {success: true}`; when a service call threw, the
handler-level catch logs and answers
`200 {success: true, message: 'Error fetching order details'}`. -/
def processOrderItems (resolve : String → String → Option String)
    (call : String → Except String Bool) (items : List LineItem) :
    List String × WebhookResponse :=
  match webhookItemLoop resolve call items with
  | (done, none) => (done, ⟨200, true, none⟩)
  | (done, some _) => (done, ⟨200, true, some "Error fetching order details"⟩)

/-! ### Module state: in-memory maps vs the persisted files

Embeds the module-level mutable state of `productCourseMapping.js`: each
store keeps a module-level in-memory image (`productToCourseMap`,
`bundleNameToIdMap`) initialized from its backing file and an on-disk
image rewritten by every set/remove; `getAllMappings`-style reads reload
from the file first, while `getCourseIdForProduct` reads the in-memory
images directly. A cooperating external writer can replace a backing
file without touching this process's memory. -/

structure MappingModule where
  /-- Persisted image of `product_course_mapping.json`. -/
  ptcFile : Store
  /-- In-memory `productToCourseMap`. -/
  ptcMem : Store
  /-- Persisted image of `bundle_name_mapping.json`. -/
  bnmFile : Store
  /-- In-memory `bundleNameToIdMap`. -/
  bnmMem : Store
  deriving DecidableEq

/-- Module load: `productToCourseMap = loadMapping()` and
`bundleNameToIdMap = loadBundleNameMapping()` (lines 77 and 137). -/
def initModule (ptcFile bnmFile : Store) : MappingModule :=
  ⟨ptcFile, ptcFile, bnmFile, bnmFile⟩

/-- A cooperating external writer (another process) replaces the
product-course backing file; this process's memory is untouched. -/
def extWritePtc (m : MappingModule) (f : Store) : MappingModule :=
  { m with ptcFile := f }

/-- `setProductCourseMapping` at module level (lines 205-208): mutate the
in-memory map, then persist the full image. -/
def setProductCourseMappingM (m : MappingModule) (k v : String) : MappingModule :=
  let mem := setProductCourseMapping m.ptcMem k v
  { m with ptcMem := mem, ptcFile := mem }

/-- `removeProductCourseMapping` at module level (lines 214-217). -/
def removeProductCourseMappingM (m : MappingModule) (k : String) : MappingModule :=
  let mem := removeProductCourseMapping m.ptcMem k
  { m with ptcMem := mem, ptcFile := mem }

/-- `getAllMappings` at module level (lines 223-227): reload the
in-memory map from the file, then return (a copy of) it. -/
def getAllMappingsM (m : MappingModule) : MappingModule × Store :=
  ({ m with ptcMem := m.ptcFile }, m.ptcFile)

/-- `getCourseIdForProduct` at module level (lines 87-105): reads the
in-memory images, with no reload. -/
def getCourseIdForProductM (m : MappingModule) (productId productName : String) :
    Option String :=
  getCourseIdForProduct m.ptcMem m.bnmMem productId productName

/-! ### Object heap: reference semantics of the list operations

Embeds just enough of JS reference semantics to state what
`return { ...map }` does for the two string-valued stores: objects live
in a heap of cells addressed by references, the module holds a reference
to its current map object, and `getAllMappings` /
`getAllBundleNameMappings` (lines 223-227, 193-197) each reassign the
module reference to a freshly loaded object and return a reference to a
fresh shallow copy of it. String values are immutable, so the string
stores need no deeper structure; the bundle-components store, whose
values are mutable arrays, is modelled separately below. -/

structure ObjHeap (α : Type) where
  cells : List α
  deriving DecidableEq

/-- Allocate a new object; its reference is the next free cell index. -/
def allocObj {α : Type} (h : ObjHeap α) (s : α) : ObjHeap α × Nat :=
  (⟨h.cells ++ [s]⟩, h.cells.length)

/-- Read the object a reference denotes. -/
def readObj {α : Type} (h : ObjHeap α) (r : Nat) : Option α :=
  h.cells.get? r

/-- Mutate the object a reference denotes in place. -/
def writeObj {α : Type} (h : ObjHeap α) (r : Nat) (s : α) : ObjHeap α :=
  ⟨h.cells.set r s⟩

/-- A mapping module's state under reference semantics: the heap, the
module-level reference to the current map object, and the backing file. -/
structure ModuleRef (α : Type) where
  heap : ObjHeap α
  mapRef : Nat
  file : α
  deriving DecidableEq

/-- The common body of the three list operations: reassign the module
map to a freshly loaded object (`xMap = loadX()`), then return a fresh
shallow copy (`return { ...xMap }`). -/
def reloadAndCopy {α : Type} (m : ModuleRef α) : ModuleRef α × Nat :=
  let a1 := allocObj m.heap m.file
  let a2 := allocObj a1.1 m.file
  (⟨a2.1, a1.2, m.file⟩, a2.2)

/-- `getAllMappings` (lines 223-227) under reference semantics. -/
def getAllMappingsR (m : ModuleRef Store) : ModuleRef Store × Nat :=
  reloadAndCopy m

/-- `getAllBundleNameMappings` (lines 193-197) under reference semantics. -/
def getAllBundleNameMappingsR (m : ModuleRef Store) : ModuleRef Store × Nat :=
  reloadAndCopy m

/-! ### The bundle-components list operation with array references

`getAllBundleMappings` (lines 261-265) also reassigns the module map to
a freshly parsed object and returns `{ ...bundleToComponentsMap }`, but
its values are arrays, and a spread copies array REFERENCES: the
returned object and the reloaded module map share the same array
objects. The model keeps the arrays in a heap (`ObjHeap (List String)`,
one cell per array) and a dictionary object as a list of
(key, array-reference) pairs; `JSON.parse` inside `loadBundleMapping`
allocates a fresh array cell per entry. -/

/-- `JSON.parse` of the bundle-components file: allocate a fresh array
cell for each entry and build the dictionary of references. -/
def parseBundleFile (h : ObjHeap (List String)) :
    List (String × List String) → ObjHeap (List String) × List (String × Nat)
  | [] => (h, [])
  | (k, a) :: rest =>
      let al := allocObj h a
      let p := parseBundleFile al.1 rest
      (p.1, (k, al.2) :: p.2)

/-- Module state for the bundle-components store under reference
semantics: the array heap, the content of the module-level
`bundleToComponentsMap` object (key to array reference), and the
persisted file. -/
structure BundleModule where
  heap : ObjHeap (List String)
  map : List (String × Nat)
  file : List (String × List String)
  deriving DecidableEq

/-- `getAllBundleMappings` (lines 261-265) under reference semantics:
`bundleToComponentsMap = loadBundleMapping()` re-parses the file into
fresh array cells, and `return { ...bundleToComponentsMap }` hands back
a fresh top-level object holding the SAME (key, array-reference)
entries. -/
def getAllBundleMappingsB (m : BundleModule) : BundleModule × List (String × Nat) :=
  let p := parseBundleFile m.heap m.file
  (⟨p.1, p.2, m.file⟩, p.2)

/-- `getBundleComponents(bundleProductId)` (lines 234-236) under
reference semantics: dereference the module map's array for the key, or
an empty array when absent. -/
def getBundleComponentsB (m : BundleModule) (k : String) : List String :=
  match lookupKeyG m.map k with
  | some r => (readObj m.heap r).getD []
  | none => []

/-- A caller's in-place mutation of a previously returned result:
`result[k].push(x)` pushes onto the array object the returned dictionary
references for `k` (a no-op when the key is absent). -/
def pushIntoReturnedArray (m : BundleModule) (ret : List (String × Nat))
    (k x : String) : BundleModule :=
  match lookupKeyG ret k with
  | some r => { m with heap := writeObj m.heap r ((readObj m.heap r).getD [] ++ [x]) }
  | none => m

/-- What a bundle-components dictionary object denotes as data:
each key with its dereferenced array. -/
def readBundleObject (h : ObjHeap (List String)) (o : List (String × Nat)) :
    List (String × List String) :=
  o.map (fun kv => (kv.1, (readObj h kv.2).getD []))

/-! ### Well-formedness of the bundle-name store

`setBundleNameMapping` only ever stores keys already normalized
(lowercased and trimmed), and the administrative route rejects falsy
(empty) course ids, so every bundle-name store reachable through the
repository's own surface has lowercase-fixed keys and non-empty values. -/

def wfBundleStore (bnm : Store) : Prop :=
  ∀ kv ∈ bnm, toLowerStr kv.1 = kv.1 ∧ kv.2 ≠ ""

instance (bnm : Store) : Decidable (wfBundleStore bnm) := by
  unfold wfBundleStore
  infer_instance

/-! ### Store lemmas -/

theorem lookup_map_update (st : Store) (k v : String) :
    lookupStr (st.map (fun kv => if kv.1 == k then (kv.1, v) else kv)) k =
      (lookupStr st k).map (fun _ => v) := by
  induction st with
  | nil => rfl
  | cons a st ih =>
    simp only [lookupStr] at ih ⊢
    by_cases h : (a.1 == k) = true
    · rw [List.map_cons, if_pos h]
      simp only [List.find?, h]
      rfl
    · have h' : (a.1 == k) = false := by simpa using h
      rw [List.map_cons, if_neg h]
      simp only [List.find?, h']
      exact ih

theorem lookup_none_of_any_false (st : Store) (k : String)
    (h : st.any (fun kv => kv.1 == k) = false) : lookupStr st k = none := by
  have hf : st.find? (fun kv => kv.1 == k) = none := by
    rw [List.find?_eq_none]
    intro x hx
    exact List.any_eq_false.mp h x hx
  simp [lookupStr, hf]

theorem find?_append_of_none {α : Type} (p : α → Bool) (l₁ l₂ : List α)
    (h : l₁.find? p = none) : (l₁ ++ l₂).find? p = l₂.find? p := by
  induction l₁ with
  | nil => rfl
  | cons a l ih =>
    simp only [List.find?] at h ⊢
    cases hp : p a with
    | true => simp [hp] at h
    | false =>
      simp only [hp] at h ⊢
      exact ih h

theorem find?_congr_mem {α : Type} (p q : α → Bool) (l : List α)
    (h : ∀ x ∈ l, p x = q x) : l.find? p = l.find? q := by
  induction l with
  | nil => rfl
  | cons a l ih =>
    simp only [List.find?]
    rw [h a (List.mem_cons_self a l)]
    cases q a with
    | true => rfl
    | false => exact ih (fun x hx => h x (List.mem_cons_of_mem a hx))

/-- Assigning a key makes a subsequent lookup of that key return the
assigned value. -/
theorem lookup_setKey (st : Store) (k v : String) :
    lookupStr (setKey st k v) k = some v := by
  unfold setKey
  by_cases h : st.any (fun kv => kv.1 == k)
  · rw [if_pos h, lookup_map_update]
    obtain ⟨x, hx, hpx⟩ := List.any_eq_true.mp h
    cases heq : lookupStr st k with
    | none =>
      have hf : st.find? (fun kv => kv.1 == k) = none := by
        cases hf' : st.find? (fun kv => kv.1 == k) with
        | none => rfl
        | some y => simp [lookupStr, hf'] at heq
      rw [List.find?_eq_none] at hf
      exact absurd hpx (hf x hx)
    | some w => simp
  · rw [if_neg h]
    have hany : st.any (fun kv => kv.1 == k) = false := by
      rwa [Bool.not_eq_true] at h
    have hf : st.find? (fun kv => kv.1 == k) = none := by
      rw [List.find?_eq_none]
      intro x hx
      exact List.any_eq_false.mp hany x hx
    simp [lookupStr, find?_append_of_none _ _ _ hf, List.find?]

/-- Deleting a key makes a subsequent lookup of that key return absent. -/
theorem lookup_removeKey (st : Store) (k : String) :
    lookupStr (removeKey st k) k = none := by
  have hf : (removeKey st k).find? (fun kv => kv.1 == k) = none := by
    rw [List.find?_eq_none]
    intro x hx
    have := (List.mem_filter.mp hx).2
    simpa using this
  simp [lookupStr, hf]

/-- Deleting an absent key leaves the store unchanged. -/
theorem removeKey_of_absent (st : Store) (k : String)
    (h : lookupStr st k = none) : removeKey st k = st := by
  have hf : st.find? (fun kv => kv.1 == k) = none := by
    cases hf' : st.find? (fun kv => kv.1 == k) with
    | none => rfl
    | some y => simp [lookupStr, hf'] at h
  rw [List.find?_eq_none] at hf
  unfold removeKey
  rw [List.filter_eq_self]
  intro a ha
  have h2 : (a.1 == k) = false := by
    have h3 := hf a ha
    simp only [Bool.not_eq_true] at h3
    exact h3
  simp [h2]

theorem lookup_map_updateG {α : Type} (st : List (String × α)) (k : String) (v : α) :
    lookupKeyG (st.map (fun kv => if kv.1 == k then (kv.1, v) else kv)) k =
      (lookupKeyG st k).map (fun _ => v) := by
  induction st with
  | nil => rfl
  | cons a st ih =>
    simp only [lookupKeyG] at ih ⊢
    by_cases h : (a.1 == k) = true
    · rw [List.map_cons, if_pos h]
      simp only [List.find?, h]
      rfl
    · have h' : (a.1 == k) = false := by simpa using h
      rw [List.map_cons, if_neg h]
      simp only [List.find?, h']
      exact ih

/-- Assigning a key makes a subsequent lookup of that key return the
assigned value (dictionaries with values of any type). -/
theorem lookup_setKeyG {α : Type} (st : List (String × α)) (k : String) (v : α) :
    lookupKeyG (setKeyG st k v) k = some v := by
  unfold setKeyG
  by_cases h : st.any (fun kv => kv.1 == k)
  · rw [if_pos h, lookup_map_updateG]
    obtain ⟨x, hx, hpx⟩ := List.any_eq_true.mp h
    cases heq : lookupKeyG st k with
    | none =>
      have hf : st.find? (fun kv => kv.1 == k) = none := by
        cases hf' : st.find? (fun kv => kv.1 == k) with
        | none => rfl
        | some y => simp [lookupKeyG, hf'] at heq
      rw [List.find?_eq_none] at hf
      exact absurd hpx (hf x hx)
    | some w => simp
  · rw [if_neg h]
    have hany : st.any (fun kv => kv.1 == k) = false := by
      rwa [Bool.not_eq_true] at h
    have hf : st.find? (fun kv => kv.1 == k) = none := by
      rw [List.find?_eq_none]
      intro x hx
      exact List.any_eq_false.mp hany x hx
    simp [lookupKeyG, find?_append_of_none _ _ _ hf, List.find?]

/-- Deleting a key makes a subsequent lookup of that key return absent
(dictionaries with values of any type). -/
theorem lookup_removeKeyG {α : Type} (st : List (String × α)) (k : String) :
    lookupKeyG (removeKeyG st k) k = none := by
  have hf : (removeKeyG st k).find? (fun kv => kv.1 == k) = none := by
    rw [List.find?_eq_none]
    intro x hx
    have := (List.mem_filter.mp hx).2
    simpa using this
  simp [lookupKeyG, hf]

/-- Deleting an absent key leaves the store unchanged (dictionaries with
values of any type). -/
theorem removeKeyG_of_absent {α : Type} (st : List (String × α)) (k : String)
    (h : lookupKeyG st k = none) : removeKeyG st k = st := by
  have hf : st.find? (fun kv => kv.1 == k) = none := by
    cases hf' : st.find? (fun kv => kv.1 == k) with
    | none => rfl
    | some y => simp [lookupKeyG, hf'] at h
  rw [List.find?_eq_none] at hf
  unfold removeKeyG
  rw [List.filter_eq_self]
  intro a ha
  have h2 : (a.1 == k) = false := by
    have h3 := hf a ha
    simp only [Bool.not_eq_true] at h3
    exact h3
  simp [h2]

/-- A truthiness-guarded return never produces the empty string. -/
theorem truthy_guard_ne_some_empty (o : Option String) :
    (if jsTruthy o then o else none) ≠ some "" := by
  cases o with
  | none => simp [jsTruthy]
  | some s =>
    by_cases h : s = ""
    · subst h; simp [jsTruthy]
    · simp [jsTruthy, h]

/-- The resolver's returns are all truthiness-guarded, so it never
returns the empty string as a course id. -/
theorem resolve_ne_some_empty (ptc bnm : Store) (p t : String) :
    getCourseIdForProduct ptc bnm p t ≠ some "" := by
  unfold getCourseIdForProduct
  by_cases h1 : jsTruthy (lookupStr ptc p) = true
  · rw [if_pos h1]
    cases hd : lookupStr ptc p with
    | none => rw [hd] at h1; simp [jsTruthy] at h1
    | some c =>
      intro heq
      injection heq with heq
      subst heq
      rw [hd] at h1
      simp [jsTruthy] at h1
  · rw [if_neg h1]
    by_cases h2 : (t != "" && strIncludes (toLowerStr t) "bundle") = true
    · rw [if_pos h2]
      exact truthy_guard_ne_some_empty _
    · rw [if_neg h2]
      simp

/-- C1: for a product with a direct (non-empty) course entry, resolution
returns that course regardless of the title: the direct mapping takes
precedence over bundle-title matching. -/
theorem direct_mapping_always_wins (ptc bnm : Store) (p c title : String)
    (hdir : lookupStr ptc p = some c) (hne : c ≠ "") :
    getCourseIdForProduct ptc bnm p title = some c := by
  simp [getCourseIdForProduct, hdir, jsTruthy, hne]

/-- C1 witness: a concrete direct entry wins over a bundle-style title
that also matches the bundle-name store. -/
theorem direct_mapping_always_wins_witness :
    lookupStr [("111", "courseA")] "111" = some "courseA" ∧
    ("courseA" : String) ≠ "" ∧
    getCourseIdForProduct [("111", "courseA")] [("bundle", "other")] "111"
      "Some Bundle" = some "courseA" :=
  ⟨by decide, by decide,
    direct_mapping_always_wins [("111", "courseA")] [("bundle", "other")] "111"
      "courseA" "Some Bundle" (by decide) (by decide)⟩

/-- C5: with no direct entry and a title not containing "bundle"
case-insensitively (including the empty title), resolution returns no
match. -/
theorem no_direct_no_bundle_title_none (ptc bnm : Store) (p t : String)
    (hdir : lookupStr ptc p = none)
    (ht : strIncludes (toLowerStr t) "bundle" = false) :
    getCourseIdForProduct ptc bnm p t = none := by
  simp [getCourseIdForProduct, hdir, jsTruthy, ht]

/-- C5 witness: a populated store still yields no match for an unmapped
product with a non-bundle title. -/
theorem no_direct_no_bundle_title_none_witness :
    lookupStr [("111", "courseA")] "222" = none ∧
    strIncludes (toLowerStr "Gift Card") "bundle" = false ∧
    getCourseIdForProduct [("111", "courseA")] [("bundle", "c")] "222" "Gift Card" = none :=
  ⟨by decide, by decide,
    no_direct_no_bundle_title_none [("111", "courseA")] [("bundle", "c")] "222"
      "Gift Card" (by decide) (by decide)⟩

/-- C9: a direct entry whose value is the empty string is falsy, so
resolution behaves exactly as if the product had no direct entry (it
falls through to the bundle branch), and the empty course value is never
returned. -/
theorem empty_direct_value_falls_through (ptc bnm : Store) (p t : String)
    (h : lookupStr ptc p = some "") :
    getCourseIdForProduct ptc bnm p t =
      getCourseIdForProduct (removeProductCourseMapping ptc p) bnm p t ∧
    getCourseIdForProduct ptc bnm p t ≠ some "" := by
  have h2 : lookupStr (removeKey ptc p) p = none := lookup_removeKey ptc p
  refine ⟨?_, resolve_ne_some_empty ptc bnm p t⟩
  simp only [getCourseIdForProduct, removeProductCourseMapping, h, h2, jsTruthy]
  simp

/-- C9 witness: an empty-valued entry resolves like an absent one, via
the bundle branch. -/
theorem empty_direct_value_falls_through_witness :
    lookupStr [("7", "")] "7" = some "" ∧
    (getCourseIdForProduct [("7", "")] [("summer bundle", "c1")] "7" "Summer Bundle" =
        getCourseIdForProduct (removeProductCourseMapping [("7", "")] "7")
          [("summer bundle", "c1")] "7" "Summer Bundle" ∧
      getCourseIdForProduct [("7", "")] [("summer bundle", "c1")] "7" "Summer Bundle" ≠
        some "") :=
  ⟨by decide,
    empty_direct_value_falls_through [("7", "")] [("summer bundle", "c1")] "7"
      "Summer Bundle" (by decide)⟩

/-- C7: on each of the three stores, set followed by get returns the
value just set; a subsequent remove followed by get returns absent; and
remove of an absent key is a no-op that succeeds. For the bundle-name
store, set and remove address the normalized (lowercased, trimmed) key;
for the bundle-components store, `getBundleComponents` additionally
dereferences absence to the empty array. -/
theorem store_crud_roundtrip (st st2 bst bst2 : Store) (cst cst2 : CompStore)
    (k v bk bv ck : String) (cv : List String)
    (habs : lookupStr st2 k = none)
    (hbabs : lookupStr bst2 (trimStr (toLowerStr bk)) = none)
    (hcabs : lookupKeyG cst2 ck = none) :
    lookupStr (setProductCourseMapping st k v) k = some v ∧
    lookupStr (removeProductCourseMapping (setProductCourseMapping st k v) k) k = none ∧
    removeProductCourseMapping st2 k = st2 ∧
    lookupStr (setBundleNameMapping bst bk bv) (trimStr (toLowerStr bk)) = some bv ∧
    lookupStr (removeBundleNameMapping (setBundleNameMapping bst bk bv) bk)
      (trimStr (toLowerStr bk)) = none ∧
    removeBundleNameMapping bst2 bk = bst2 ∧
    lookupKeyG (setBundleComponents cst ck cv) ck = some cv ∧
    getBundleComponents (setBundleComponents cst ck cv) ck = cv ∧
    lookupKeyG (removeBundleComponents (setBundleComponents cst ck cv) ck) ck = none ∧
    getBundleComponents (removeBundleComponents (setBundleComponents cst ck cv) ck) ck = [] ∧
    removeBundleComponents cst2 ck = cst2 :=
  ⟨lookup_setKey st k v, lookup_removeKey _ k, removeKey_of_absent st2 k habs,
    lookup_setKey bst _ bv, lookup_removeKey _ _, removeKey_of_absent bst2 _ hbabs,
    lookup_setKeyG cst ck cv,
    by simp only [getBundleComponents, setBundleComponents, lookup_setKeyG,
      Option.getD_some],
    lookup_removeKeyG _ ck,
    by simp only [getBundleComponents, removeBundleComponents, setBundleComponents,
      lookup_removeKeyG, Option.getD_none],
    removeKeyG_of_absent cst2 ck hcabs⟩

/-- C7 witness: the round trip on concrete stores, including no-op
removes on absent keys, for all three stores. -/
theorem store_crud_roundtrip_witness :
    lookupStr [("0", "z")] "a" = none ∧
    lookupStr [] (trimStr (toLowerStr "Summer Bundle")) = none ∧
    lookupKeyG ([("9", ["c9"])] : CompStore) "b7" = none ∧
    (lookupStr (setProductCourseMapping [("0", "z")] "a" "b") "a" = some "b" ∧
      lookupStr (removeProductCourseMapping (setProductCourseMapping [("0", "z")] "a" "b") "a")
        "a" = none ∧
      removeProductCourseMapping [("0", "z")] "a" = [("0", "z")] ∧
      lookupStr (setBundleNameMapping [] "Summer Bundle" "c1")
        (trimStr (toLowerStr "Summer Bundle")) = some "c1" ∧
      lookupStr (removeBundleNameMapping (setBundleNameMapping [] "Summer Bundle" "c1")
        "Summer Bundle") (trimStr (toLowerStr "Summer Bundle")) = none ∧
      removeBundleNameMapping [] "Summer Bundle" = [] ∧
      lookupKeyG (setBundleComponents [("9", ["c9"])] "b7" ["c1", "c2"]) "b7" =
        some ["c1", "c2"] ∧
      getBundleComponents (setBundleComponents [("9", ["c9"])] "b7" ["c1", "c2"]) "b7" =
        ["c1", "c2"] ∧
      lookupKeyG (removeBundleComponents
        (setBundleComponents [("9", ["c9"])] "b7" ["c1", "c2"]) "b7") "b7" = none ∧
      getBundleComponents (removeBundleComponents
        (setBundleComponents [("9", ["c9"])] "b7" ["c1", "c2"]) "b7") "b7" = [] ∧
      removeBundleComponents [("9", ["c9"])] "b7" = [("9", ["c9"])]) :=
  ⟨by decide, by decide, by decide,
    store_crud_roundtrip [("0", "z")] [("0", "z")] [] [] [("9", ["c9"])] [("9", ["c9"])]
      "a" "b" "Summer Bundle" "c1" "b7" ["c1", "c2"]
      (by decide) (by decide) (by decide)⟩

/-- C2: on a well-formed bundle-name store (normalized keys, non-empty
values), a product with no direct entry and a title containing "bundle"
case-insensitively resolves to the exact normalized-title match when one
exists, otherwise to the value of the first key (in store iteration
order) that is a substring of the normalized title, and otherwise to no
match. -/
theorem bundle_title_resolution (ptc bnm : Store) (p t : String)
    (hwf : wfBundleStore bnm)
    (hdir : lookupStr ptc p = none)
    (hb : strIncludes (toLowerStr t) "bundle" = true) :
    getCourseIdForProduct ptc bnm p t =
      (match lookupStr bnm (trimStr (toLowerStr t)) with
       | some v => some v
       | none =>
           (bnm.find?
             (fun kv => strIncludes (trimStr (toLowerStr t)) kv.1)).map (·.2)) := by
  have ht : t ≠ "" := by
    intro h0
    rw [h0] at hb
    exact absurd hb (by decide)
  have htb : (t != "" && strIncludes (toLowerStr t) "bundle") = true := by
    simp [bne, ht, hb]
  simp only [getCourseIdForProduct]
  rw [hdir]
  rw [if_neg (by simp [jsTruthy])]
  rw [if_pos htb]
  cases he : lookupStr bnm (trimStr (toLowerStr t)) with
  | some v =>
    have hv : v ≠ "" := by
      cases hf : bnm.find? (fun kv => kv.1 == trimStr (toLowerStr t)) with
      | none => rw [lookupStr, hf] at he; simp at he
      | some kv =>
        have hkv : kv.2 = v := by
          rw [lookupStr, hf] at he
          simpa using he
        have hmem := List.mem_of_find?_eq_some hf
        rw [← hkv]
        exact (hwf kv hmem).2
    simp [findBundleCourseIdByName, he, jsTruthy, hv]
  | none =>
    have hcongr :
        bnm.find? (fun kv => strIncludes (trimStr (toLowerStr t)) (toLowerStr kv.1)) =
          bnm.find? (fun kv => strIncludes (trimStr (toLowerStr t)) kv.1) :=
      find?_congr_mem _ _ bnm (fun kv hkv => by rw [(hwf kv hkv).1])
    cases hp : bnm.find? (fun kv => strIncludes (trimStr (toLowerStr t)) kv.1) with
    | none => simp [findBundleCourseIdByName, he, hcongr, hp, jsTruthy]
    | some kv =>
      have hv : kv.2 ≠ "" := (hwf kv (List.mem_of_find?_eq_some hp)).2
      simp [findBundleCourseIdByName, he, hcongr, hp, jsTruthy, hv]

/-- C2 witness: a substring match on a well-formed store ("summer
bundle" inside "summer bundle pack") resolves to that entry's course. -/
theorem bundle_title_resolution_witness :
    wfBundleStore [("summer bundle", "c1")] ∧
    lookupStr [] "9" = none ∧
    strIncludes (toLowerStr "Summer Bundle Pack") "bundle" = true ∧
    getCourseIdForProduct [] [("summer bundle", "c1")] "9" "Summer Bundle Pack" =
      (match lookupStr [("summer bundle", "c1")]
          (trimStr (toLowerStr "Summer Bundle Pack")) with
       | some v => some v
       | none =>
           (List.find?
             (fun kv => strIncludes (trimStr (toLowerStr "Summer Bundle Pack")) kv.1)
             [("summer bundle", "c1")]).map (·.2)) :=
  ⟨by decide, by decide, by decide,
    bundle_title_resolution [] [("summer bundle", "c1")] "9" "Summer Bundle Pack"
      (by decide) (by decide) (by decide)⟩

/-- C3: when no user with the email exists, unenrollment reports success
(`true`) without issuing any enrollment-mutating request, leaves the
platform state unchanged, and doing it again under the same condition
reports success again with no mutation either time. -/
theorem unenroll_absent_user_idempotent (ptc bnm : Store) (st : LWState)
    (email pid pname : String)
    (h : findUserByEmail st email = none) :
    (unenrollUserFromCourse ptc bnm st email pid pname).result = .ok true ∧
    (unenrollUserFromCourse ptc bnm st email pid pname).state = st ∧
    ((unenrollUserFromCourse ptc bnm st email pid pname).trace.all
      (fun c => ! c.isMutation)) = true ∧
    (unenrollUserFromCourse ptc bnm
        (unenrollUserFromCourse ptc bnm st email pid pname).state
        email pid pname).result = .ok true ∧
    (unenrollUserFromCourse ptc bnm
        (unenrollUserFromCourse ptc bnm st email pid pname).state
        email pid pname).state = st ∧
    ((unenrollUserFromCourse ptc bnm
        (unenrollUserFromCourse ptc bnm st email pid pname).state
        email pid pname).trace.all (fun c => ! c.isMutation)) = true := by
  have e1 : unenrollUserFromCourse ptc bnm st email pid pname =
      { result := .ok true, state := st
        trace := [.getUsers email, .getUsers "limit=1"] } := by
    simp [unenrollUserFromCourse, h]
  rw [e1]
  simp [unenrollUserFromCourse, h, ApiCall.isMutation]

/-- C3 witness: unenrolling an email unknown to a concrete platform
state, twice. -/
theorem unenroll_absent_user_idempotent_witness :
    findUserByEmail ⟨[⟨"u1", "b@y.com"⟩], [("u1", "courseA")]⟩ "a@x.com" = none ∧
    (unenrollUserFromCourse [("111", "courseA")] []
        ⟨[⟨"u1", "b@y.com"⟩], [("u1", "courseA")]⟩ "a@x.com" "111" "").result = .ok true ∧
    (unenrollUserFromCourse [("111", "courseA")] []
        ⟨[⟨"u1", "b@y.com"⟩], [("u1", "courseA")]⟩ "a@x.com" "111" "").state =
      ⟨[⟨"u1", "b@y.com"⟩], [("u1", "courseA")]⟩ :=
  ⟨by decide,
    (unenroll_absent_user_idempotent [("111", "courseA")] []
        ⟨[⟨"u1", "b@y.com"⟩], [("u1", "courseA")]⟩ "a@x.com" "111" "" (by decide)).1,
    (unenroll_absent_user_idempotent [("111", "courseA")] []
        ⟨[⟨"u1", "b@y.com"⟩], [("u1", "courseA")]⟩ "a@x.com" "111" "" (by decide)).2.1⟩

/-- C4: when the user exists and the product resolves to a course but the
platform has no such enrollment, the DELETE answers 404 and unenrollment
still reports success (`true`) rather than an error, with the platform
state unchanged. -/
theorem unenroll_missing_membership_success (ptc bnm : Store) (st : LWState)
    (email pid pname : String) (u : LWUser) (cid : String)
    (hu : findUserByEmail st email = some u)
    (hc : getCourseIdForProduct ptc bnm pid pname = some cid)
    (he : st.enrollments.contains (u.id, cid) = false) :
    (unenrollUserFromCourse ptc bnm st email pid pname).result = .ok true ∧
    (unenrollUserFromCourse ptc bnm st email pid pname).state = st := by
  have hd : deleteEnrollmentApi st u.id cid = (404, st) := by
    have hne : st.enrollments.contains (u.id, cid) ≠ true := by
      rw [he]; simp
    simp only [deleteEnrollmentApi]
    rw [if_neg hne]
  simp [unenrollUserFromCourse, hu, hc, hd]

/-- C4 witness: unenrolling an existing user from a mapped course they
are not enrolled in. -/
theorem unenroll_missing_membership_success_witness :
    findUserByEmail ⟨[⟨"u1", "a@x.com"⟩], [("u1", "other")]⟩ "A@X.com" =
      some ⟨"u1", "a@x.com"⟩ ∧
    getCourseIdForProduct [("111", "courseA")] [] "111" "" = some "courseA" ∧
    (⟨[⟨"u1", "a@x.com"⟩], [("u1", "other")]⟩ : LWState).enrollments.contains
      ("u1", "courseA") = false ∧
    (unenrollUserFromCourse [("111", "courseA")] []
        ⟨[⟨"u1", "a@x.com"⟩], [("u1", "other")]⟩ "A@X.com" "111" "").result = .ok true ∧
    (unenrollUserFromCourse [("111", "courseA")] []
        ⟨[⟨"u1", "a@x.com"⟩], [("u1", "other")]⟩ "A@X.com" "111" "").state =
      ⟨[⟨"u1", "a@x.com"⟩], [("u1", "other")]⟩ :=
  ⟨by decide, by decide, by decide,
    (unenroll_missing_membership_success [("111", "courseA")] []
        ⟨[⟨"u1", "a@x.com"⟩], [("u1", "other")]⟩ "A@X.com" "111" "" ⟨"u1", "a@x.com"⟩
        "courseA" (by decide) (by decide) (by decide)).1,
    (unenroll_missing_membership_success [("111", "courseA")] []
        ⟨[⟨"u1", "a@x.com"⟩], [("u1", "other")]⟩ "A@X.com" "111" "" ⟨"u1", "a@x.com"⟩
        "courseA" (by decide) (by decide) (by decide)).2⟩

/-- C6 counterexample: after a cooperating external writer updates the
product-course backing file, the get used by the resolver (which reads
the module's in-memory map without reloading) still returns the old
image: it does not reflect the file's current contents. -/
theorem resolver_read_staleness_cex :
    getCourseIdForProductM (extWritePtc (initModule [] []) [("p", "c")]) "p" "" = none ∧
    lookupStr (extWritePtc (initModule [] []) [("p", "c")]).ptcFile "p" = some "c" ∧
    (none : Option String) ≠ some "c" := by
  exact ⟨by decide, by decide, by decide⟩

/-- C6 (amended): `getAllMappings` reloads from the persisted image on
every call — it returns the file's current contents (also right after an
external write) and refreshes the in-memory map — and every in-process
mutation persists the full image before returning, so memory and file
agree after set/remove; but `getCourseIdForProduct` reads the in-memory
images without reloading, so its reads reflect the persisted image only
up to the last load, not a concurrent external writer. -/
theorem list_reads_fresh_resolver_reads_memory (m : MappingModule)
    (k v : String) (f : Store) (p t : String) :
    (getAllMappingsM m).2 = m.ptcFile ∧
    (getAllMappingsM m).1.ptcMem = m.ptcFile ∧
    (getAllMappingsM (extWritePtc m f)).2 = f ∧
    (setProductCourseMappingM m k v).ptcMem = (setProductCourseMappingM m k v).ptcFile ∧
    (removeProductCourseMappingM m k).ptcMem = (removeProductCourseMappingM m k).ptcFile ∧
    getCourseIdForProductM (extWritePtc m f) p t = getCourseIdForProductM m p t :=
  ⟨rfl, rfl, rfl, rfl, rfl, rfl⟩

/-! Concrete fixtures for the order-event loop: two line items, both with
a direct product-course mapping, where the unenroll/enroll call for the
first item's course throws. -/

def cexPtc : Store := [("1", "courseA"), ("2", "courseB")]

def cexItems : List LineItem := [⟨some "1", "A"⟩, ⟨some "2", "B"⟩]

def cexCall : String → Except String Bool := fun cid =>
  if cid == "courseA" then .error "network error" else .ok true

/-- C8 counterexample: both items resolve to a course, the first item's
service call throws, and the second item's call is never made — the
event's processing does not continue with the remaining line items
(though the handler still answers a success-shaped response). -/
theorem item_failure_aborts_remaining_items_cex :
    getCourseIdForProduct cexPtc [] "2" "B" = some "courseB" ∧
    cexCall "courseA" = .error "network error" ∧
    (processOrderItems (getCourseIdForProduct cexPtc []) cexCall cexItems).1 =
      ["courseA"] ∧
    "courseB" ∉ (processOrderItems (getCourseIdForProduct cexPtc []) cexCall cexItems).1 ∧
    (processOrderItems (getCourseIdForProduct cexPtc []) cexCall cexItems).2 =
      ⟨200, true, some "Error fetching order details"⟩ := by
  refine ⟨by decide, rfl, by decide, by decide, by decide⟩

/-- When every service call succeeds, the loop processes every
resolvable line item, in order. -/
theorem webhookItemLoop_all_ok (resolve : String → String → Option String)
    (call : String → Except String Bool)
    (h : ∀ c : String, ∃ b : Bool, call c = .ok b) (items : List LineItem) :
    webhookItemLoop resolve call items =
      (items.filterMap (fun it => it.product_id.bind (fun q => resolve q it.title)),
        none) := by
  induction items with
  | nil => rfl
  | cons it rest ih =>
    cases hpid : it.product_id with
    | none => simp [webhookItemLoop, hpid, ih]
    | some q =>
      cases hres : resolve q it.title with
      | none => simp [webhookItemLoop, hpid, hres, ih]
      | some c =>
        obtain ⟨b, hb⟩ := h c
        simp [webhookItemLoop, hpid, hres, hb, ih]

/-- C8 (amended): line items are processed strictly sequentially; an
item without a product id or without a resolved course is skipped and
processing continues; when every call succeeds, every resolvable item is
processed in order; but when the enroll/unenroll call for an item
throws, the remaining items are NOT processed — the error is caught and
logged at the handler level, which still answers a success-shaped
response. -/
theorem item_loop_failure_propagation
    (resolve : String → String → Option String) (call : String → Except String Bool)
    (item : LineItem) (rest items : List LineItem) (pid cid e : String)
    (h1 : item.product_id = some pid)
    (h2 : resolve pid item.title = some cid)
    (h3 : call cid = .error e) :
    webhookItemLoop resolve call (item :: rest) = ([cid], some e) ∧
    (∀ it : LineItem, it.product_id = none →
      webhookItemLoop resolve call (it :: items) = webhookItemLoop resolve call items) ∧
    (∀ it : LineItem, ∀ q : String, it.product_id = some q → resolve q it.title = none →
      webhookItemLoop resolve call (it :: items) = webhookItemLoop resolve call items) ∧
    ((∀ c : String, ∃ b : Bool, call c = .ok b) →
      webhookItemLoop resolve call items =
        (items.filterMap (fun it => it.product_id.bind (fun q => resolve q it.title)),
          none)) ∧
    (processOrderItems resolve call (item :: rest)).2 =
      ⟨200, true, some "Error fetching order details"⟩ := by
  have habort : webhookItemLoop resolve call (item :: rest) = ([cid], some e) := by
    simp [webhookItemLoop, h1, h2, h3]
  refine ⟨habort, ?_, ?_, fun hok => webhookItemLoop_all_ok resolve call hok items, ?_⟩
  · intro it hit
    simp [webhookItemLoop, hit]
  · intro it q hit hres
    simp [webhookItemLoop, hit, hres]
  · simp [processOrderItems, habort]

/-- C8 amended witness: the loop aborts on the concrete failing event,
skip items are skipped, and an all-success run processes every
resolvable item. -/
theorem item_loop_failure_propagation_witness :
    (⟨some "1", "A"⟩ : LineItem).product_id = some "1" ∧
    getCourseIdForProduct cexPtc [] "1" "A" = some "courseA" ∧
    cexCall "courseA" = .error "network error" ∧
    webhookItemLoop (getCourseIdForProduct cexPtc []) cexCall cexItems =
      (["courseA"], some "network error") ∧
    (processOrderItems (getCourseIdForProduct cexPtc []) cexCall cexItems).2 =
      ⟨200, true, some "Error fetching order details"⟩ := by
  have happ := item_loop_failure_propagation (getCourseIdForProduct cexPtc []) cexCall
    ⟨some "1", "A"⟩ [⟨some "2", "B"⟩] cexItems "1" "courseA" "network error"
    (by decide) (by decide) rfl
  exact ⟨by decide, by decide, rfl, happ.1, happ.2.2.2.2⟩

/-- Common shallow-copy facts about one reload-and-copy list operation:
the returned reference holds the store's persisted contents; it is
distinct from the module's own map reference; mutating the returned
object leaves the module's map object unchanged (still the loaded
image); and a subsequent list call still returns the persisted image. -/
theorem reloadAndCopy_shallow {α : Type} (m : ModuleRef α) (w : α) :
    readObj (reloadAndCopy m).1.heap (reloadAndCopy m).2 = some m.file ∧
    (reloadAndCopy m).2 ≠ (reloadAndCopy m).1.mapRef ∧
    readObj (writeObj (reloadAndCopy m).1.heap (reloadAndCopy m).2 w)
        (reloadAndCopy m).1.mapRef = some m.file ∧
    readObj
        (reloadAndCopy { (reloadAndCopy m).1 with
          heap := writeObj (reloadAndCopy m).1.heap (reloadAndCopy m).2 w }).1.heap
        (reloadAndCopy { (reloadAndCopy m).1 with
          heap := writeObj (reloadAndCopy m).1.heap (reloadAndCopy m).2 w }).2 =
      some m.file := by
  have hlen : (m.heap.cells ++ [m.file]).length = m.heap.cells.length + 1 := by
    simp
  refine ⟨?_, ?_, ?_, ?_⟩
  · simp only [reloadAndCopy, allocObj, readObj]
    exact List.get?_concat_length _ _
  · simp only [reloadAndCopy, allocObj]
    omega
  · simp only [reloadAndCopy, allocObj, readObj, writeObj]
    rw [List.get?_set_ne _ _ (by omega)]
    rw [List.get?_append (by simp)]
    exact List.get?_concat_length _ _
  · simp only [reloadAndCopy, allocObj, readObj, writeObj]
    exact List.get?_concat_length _ _

/-- Reading a reference that predates a parse is unaffected by the
parse's allocations. -/
theorem parse_preserves (file : List (String × List String))
    (h : ObjHeap (List String)) (r : Nat) (hr : r < h.cells.length) :
    readObj (parseBundleFile h file).1 r = readObj h r := by
  induction file generalizing h with
  | nil => rfl
  | cons e rest ih =>
    obtain ⟨k, a⟩ := e
    have h2 : r < (allocObj h a).1.cells.length := by
      simp only [allocObj, List.length_append, List.length_cons, List.length_nil]
      omega
    have h1 : readObj (allocObj h a).1 r = readObj h r := by
      simp only [allocObj, readObj]
      exact List.get?_append hr
    calc readObj (parseBundleFile h ((k, a) :: rest)).1 r
        = readObj (parseBundleFile (allocObj h a).1 rest).1 r := rfl
      _ = readObj (allocObj h a).1 r := ih (allocObj h a).1 h2
      _ = readObj h r := h1

/-- A parse only grows the heap. -/
theorem parse_length_ge (file : List (String × List String))
    (h : ObjHeap (List String)) :
    h.cells.length ≤ (parseBundleFile h file).1.cells.length := by
  induction file generalizing h with
  | nil => exact Nat.le_refl _
  | cons e rest ih =>
    obtain ⟨k, a⟩ := e
    have h2 : h.cells.length ≤ (allocObj h a).1.cells.length := by
      simp [allocObj]
    exact Nat.le_trans h2 (ih (allocObj h a).1)

/-- Every array reference a parse hands out is a valid cell of the
resulting heap. -/
theorem parse_refs_valid (file : List (String × List String))
    (h : ObjHeap (List String)) :
    ∀ kv ∈ (parseBundleFile h file).2, kv.2 < (parseBundleFile h file).1.cells.length := by
  induction file generalizing h with
  | nil => intro kv hkv; simp [parseBundleFile] at hkv
  | cons e rest ih =>
    obtain ⟨k, a⟩ := e
    intro kv hkv
    have hkv' : kv = (k, h.cells.length) ∨ kv ∈ (parseBundleFile (allocObj h a).1 rest).2 := by
      simpa [parseBundleFile] using hkv
    cases hkv' with
    | inl he =>
      subst he
      have hlt : h.cells.length < (allocObj h a).1.cells.length := by
        simp [allocObj]
      exact Nat.lt_of_lt_of_le hlt (parse_length_ge rest (allocObj h a).1)
    | inr hm => exact ih (allocObj h a).1 kv hm

/-- Dereferencing a freshly parsed bundle dictionary yields exactly the
parsed file's contents. -/
theorem parse_readBack (file : List (String × List String))
    (h : ObjHeap (List String)) :
    readBundleObject (parseBundleFile h file).1 (parseBundleFile h file).2 = file := by
  induction file generalizing h with
  | nil => rfl
  | cons e rest ih =>
    obtain ⟨k, a⟩ := e
    have hhead : readObj (parseBundleFile (allocObj h a).1 rest).1 h.cells.length = some a := by
      have hvalid : h.cells.length < (allocObj h a).1.cells.length := by
        simp [allocObj]
      rw [parse_preserves rest (allocObj h a).1 _ hvalid]
      simp only [allocObj, readObj]
      exact List.get?_concat_length _ _
    show ((k, (readObj (parseBundleFile (allocObj h a).1 rest).1 h.cells.length).getD []) ::
        readBundleObject (parseBundleFile (allocObj h a).1 rest).1
          (parseBundleFile (allocObj h a).1 rest).2) = (k, a) :: rest
    rw [hhead, ih (allocObj h a).1]
    rfl

/-- C10 counterexample: after `getAllBundleMappings`, pushing onto a
component array of the returned object changes what a subsequent
`getBundleComponents` returns for that key — the spread copy shares its
array references with the reloaded in-memory store, so a subsequent get
IS affected by a caller's in-place modification of a previously returned
result. -/
theorem bundle_list_shallow_shares_arrays_cex :
    getBundleComponentsB
        (pushIntoReturnedArray
          (getAllBundleMappingsB ⟨⟨[]⟩, [], [("b", ["c1"])]⟩).1
          (getAllBundleMappingsB ⟨⟨[]⟩, [], [("b", ["c1"])]⟩).2 "b" "x") "b" =
      ["c1", "x"] ∧
    getBundleComponentsB (getAllBundleMappingsB ⟨⟨[]⟩, [], [("b", ["c1"])]⟩).1 "b" =
      ["c1"] ∧
    (["c1", "x"] : List String) ≠ ["c1"] := by
  decide

/-- C10 (amended): every list operation returns a fresh top-level
object holding the store's persisted contents. For the string-valued
stores (`getAllMappings`, `getAllBundleNameMappings`) the returned
object is distinct from the module's map object and mutating it affects
neither the resolver's reads nor a subsequent list. For
`getAllBundleMappings` the copy is shallow: the returned object shares
its component arrays with the reloaded module map, so an in-place
mutation of a returned component array IS visible to a subsequent
`getBundleComponents`; a subsequent `getAllBundleMappings`, which
re-parses the persisted file, still returns the file's contents
whatever was mutated. -/
theorem list_ops_shallow_copy_amended (m1 m2 : ModuleRef Store) (w1 w2 : Store)
    (m3 : BundleModule) (k x : String) (r : Nat)
    (hr : lookupKeyG (getAllBundleMappingsB m3).2 k = some r) :
    (readObj (getAllMappingsR m1).1.heap (getAllMappingsR m1).2 = some m1.file ∧
      (getAllMappingsR m1).2 ≠ (getAllMappingsR m1).1.mapRef ∧
      readObj (writeObj (getAllMappingsR m1).1.heap (getAllMappingsR m1).2 w1)
          (getAllMappingsR m1).1.mapRef = some m1.file ∧
      readObj
          (getAllMappingsR { (getAllMappingsR m1).1 with
            heap := writeObj (getAllMappingsR m1).1.heap (getAllMappingsR m1).2 w1 }).1.heap
          (getAllMappingsR { (getAllMappingsR m1).1 with
            heap := writeObj (getAllMappingsR m1).1.heap (getAllMappingsR m1).2 w1 }).2 =
        some m1.file) ∧
    (readObj (getAllBundleNameMappingsR m2).1.heap (getAllBundleNameMappingsR m2).2 =
        some m2.file ∧
      (getAllBundleNameMappingsR m2).2 ≠ (getAllBundleNameMappingsR m2).1.mapRef ∧
      readObj
          (writeObj (getAllBundleNameMappingsR m2).1.heap (getAllBundleNameMappingsR m2).2 w2)
          (getAllBundleNameMappingsR m2).1.mapRef = some m2.file ∧
      readObj
          (getAllBundleNameMappingsR { (getAllBundleNameMappingsR m2).1 with
            heap := writeObj (getAllBundleNameMappingsR m2).1.heap
              (getAllBundleNameMappingsR m2).2 w2 }).1.heap
          (getAllBundleNameMappingsR { (getAllBundleNameMappingsR m2).1 with
            heap := writeObj (getAllBundleNameMappingsR m2).1.heap
              (getAllBundleNameMappingsR m2).2 w2 }).2 = some m2.file) ∧
    (getAllBundleMappingsB m3).1.map = (getAllBundleMappingsB m3).2 ∧
    readBundleObject (getAllBundleMappingsB m3).1.heap (getAllBundleMappingsB m3).2 =
      m3.file ∧
    getBundleComponentsB
        (pushIntoReturnedArray (getAllBundleMappingsB m3).1
          (getAllBundleMappingsB m3).2 k x) k =
      getBundleComponentsB (getAllBundleMappingsB m3).1 k ++ [x] ∧
    (∀ m' : BundleModule,
      readBundleObject (getAllBundleMappingsB m').1.heap (getAllBundleMappingsB m').2 =
        m'.file) := by
  refine ⟨reloadAndCopy_shallow m1 w1, reloadAndCopy_shallow m2 w2, rfl,
    parse_readBack m3.file m3.heap, ?_, fun m' => parse_readBack m'.file m'.heap⟩
  have hrM : lookupKeyG (getAllBundleMappingsB m3).1.map k = some r := hr
  have hvalid : r < (getAllBundleMappingsB m3).1.heap.cells.length := by
    cases hf : (getAllBundleMappingsB m3).2.find? (fun kv => kv.1 == k) with
    | none => rw [lookupKeyG, hf] at hr; simp at hr
    | some kv =>
      have hkv2 : kv.2 = r := by
        rw [lookupKeyG, hf] at hr
        simpa using hr
      have hmem := List.mem_of_find?_eq_some hf
      exact hkv2 ▸ parse_refs_valid m3.file m3.heap kv hmem
  have hpush : pushIntoReturnedArray (getAllBundleMappingsB m3).1
      (getAllBundleMappingsB m3).2 k x =
      { (getAllBundleMappingsB m3).1 with
        heap := writeObj (getAllBundleMappingsB m3).1.heap r
          ((readObj (getAllBundleMappingsB m3).1.heap r).getD [] ++ [x]) } := by
    simp [pushIntoReturnedArray, hr]
  have hws : readObj (writeObj (getAllBundleMappingsB m3).1.heap r
      ((readObj (getAllBundleMappingsB m3).1.heap r).getD [] ++ [x])) r =
      some ((readObj (getAllBundleMappingsB m3).1.heap r).getD [] ++ [x]) := by
    simp only [writeObj, readObj]
    exact List.get?_set_eq_of_lt _ hvalid
  rw [hpush]
  simp [getBundleComponentsB, hrM, hws]

/-- C10 amended witness: on a concrete module whose file holds one
bundle with one component, the returned object's array reference for
that bundle is 0, and pushing onto it is visible to the next
`getBundleComponents`. -/
theorem list_ops_shallow_copy_amended_witness :
    lookupKeyG (getAllBundleMappingsB ⟨⟨[]⟩, [], [("b", ["c1"])]⟩).2 "b" = some 0 ∧
    getBundleComponentsB
        (pushIntoReturnedArray
          (getAllBundleMappingsB ⟨⟨[]⟩, [], [("b", ["c1"])]⟩).1
          (getAllBundleMappingsB ⟨⟨[]⟩, [], [("b", ["c1"])]⟩).2 "b" "x") "b" =
      getBundleComponentsB (getAllBundleMappingsB ⟨⟨[]⟩, [], [("b", ["c1"])]⟩).1 "b" ++
        ["x"] :=
  ⟨by decide,
    (list_ops_shallow_copy_amended ⟨⟨[]⟩, 0, []⟩ ⟨⟨[]⟩, 0, []⟩ [] []
      ⟨⟨[]⟩, [], [("b", ["c1"])]⟩ "b" "x" 0 (by decide)).2.2.2.2.1⟩

end ShopifyLW
